import Mathlib

/-!
# Cloud Explorer — verification of the credential/session/client core

Shallow embedding of the credential, session and client-factory core of the
repository (`app/models/aws.py`, `app/aws/credentials.py`,
`app/aws/session_manager.py`, `app/aws/client_factory.py`).

Conventions of the embedding:
* `datetime` values are modelled as `Int` seconds since an arbitrary epoch;
  `timedelta` arithmetic becomes `Int` arithmetic.  The implicit
  `datetime.utcnow()` of the Python code becomes an explicit `now : Int`
  argument.
* Python `dict` (insertion ordered) is modelled as an association list
  `List (key × value)`; `d[k] = v` replaces in place when the key exists and
  appends otherwise, `del d[k]` removes the key, iteration order is list order.
* Python truthiness of an optional string (`if data.get('x')`) is modelled by
  `truthy : Option String → Bool` (absent and `""` are falsy).
* Fallible operations return `Except`/`Option`; a Python exception that the
  modelled code raises becomes an `.error`/`none` result.
-/

namespace CloudExplorer

/-- Python truthiness of an optional string: `None` and `""` are falsy. -/
def truthy : Option String → Bool
  | none => false
  | some s => s ≠ ""

/-! ## Data model (`app/models/aws.py`) -/

/-- `AWSProfileType` enum. -/
inductive AWSProfileType where
  | iam_user
  | iam_role
  | sso
  | federated
  | session
  deriving DecidableEq, Repr

/-- `AWSCredential`: static credential from the credentials file. -/
structure AWSCredential where
  aws_access_key_id : String
  aws_secret_access_key : String
  aws_session_token : Option String := none
  deriving DecidableEq, Repr

/-- The keyword data passed to `AWSProfile.__init__`: every optional field of
the pydantic model, plus the embedded credential.  Absent dictionary keys are
`none`. -/
structure ProfileData where
  name : String := ""
  region : Option String := none
  output : Option String := none
  role_arn : Option String := none
  source_profile : Option String := none
  external_id : Option String := none
  mfa_serial : Option String := none
  role_session_name : Option String := none
  duration_seconds : Option Int := none
  sso_start_url : Option String := none
  sso_region : Option String := none
  sso_account_id : Option String := none
  sso_role_name : Option String := none
  sso_session : Option String := none
  sso_registration_scopes : Option String := none
  web_identity_token_file : Option String := none
  credential_source : Option String := none
  credentials : Option AWSCredential := none
  deriving DecidableEq, Repr

/-- Truthiness of `data['credentials'].aws_session_token` guarded by
`data.get('credentials')` as in `AWSProfile.__init__`. -/
def credentialsHaveToken (d : ProfileData) : Bool :=
  match d.credentials with
  | none => false
  | some c => truthy c.aws_session_token

/-- The profile-type auto-detection in `AWSProfile.__init__` (run when no
explicit `profile_type` other than the `IAM_USER` default is supplied). -/
def detectProfileType (d : ProfileData) : AWSProfileType :=
  if truthy d.sso_start_url || truthy d.sso_session then .sso
  else if truthy d.role_arn then .iam_role
  else if truthy d.web_identity_token_file then .federated
  else if credentialsHaveToken d then .session
  else .iam_user

/-- `AWSProfile`: the constructed pydantic model, with the auto-detected type. -/
structure AWSProfile where
  data : ProfileData
  profile_type : AWSProfileType
  deriving DecidableEq, Repr

/-- Constructing an `AWSProfile` without an explicit `profile_type` runs the
auto-detection of `__init__`. -/
def AWSProfile.mk' (d : ProfileData) : AWSProfile :=
  ⟨d, detectProfileType d⟩

/-- The credential dictionary cached inside an `AWSSession`
(`Dict[str, Optional[str]]` with the three fixed keys). -/
structure SessionCredentials where
  aws_access_key_id : Option String := none
  aws_secret_access_key : Option String := none
  aws_session_token : Option String := none
  deriving DecidableEq, Repr

/-- `AWSSession`: cached session metadata. -/
structure AWSSession where
  profile_name : String
  region : String
  session_id : String
  created_at : Int
  expires_at : Option Int := none
  credentials : Option SessionCredentials := none
  is_role_session : Bool := false
  role_arn : Option String := none
  deriving DecidableEq, Repr

/-- `AWSSession.is_expired`: `now ≥ expires_at`, false when `expires_at` unset. -/
def AWSSession.is_expired (s : AWSSession) (now : Int) : Bool :=
  match s.expires_at with
  | none => false
  | some e => e ≤ now

/-- `AWSSession.time_until_expiry`: remaining time clamped at zero, `none`
when `expires_at` unset. -/
def AWSSession.time_until_expiry (s : AWSSession) (now : Int) : Option Int :=
  match s.expires_at with
  | none => none
  | some e => some (if 0 < e - now then e - now else 0)

/-- `AWSSession.should_refresh`: remaining time is at most
`threshold_minutes` minutes, false when `expires_at` unset. -/
def AWSSession.should_refresh (s : AWSSession) (now : Int)
    (threshold_minutes : Int := 15) : Bool :=
  match s.expires_at with
  | none => false
  | some _ =>
    let threshold := threshold_minutes * 60
    match s.time_until_expiry now with
    | none => false
    | some remaining => remaining ≤ threshold

/-! ## Session cache (`AWSSessionCache`, `app/models/aws.py`) -/

/-- A Python dict modelled as an association list in insertion order. -/
abbrev PyDict (α : Type) := List (String × α)

/-- `k in d` on a Python dict. -/
def dictHasKey {α : Type} (l : PyDict α) (k : String) : Bool :=
  l.any (fun p => p.1 = k)

/-- `d.get(k)` / `d[k]` on a Python dict. -/
def dictGet {α : Type} (l : PyDict α) (k : String) : Option α :=
  (l.find? (fun p => p.1 = k)).map (·.2)

/-- `d[k] = v` on a Python dict: replace in place if the key exists,
append otherwise. -/
def dictInsert {α : Type} (l : PyDict α) (k : String) (v : α) : PyDict α :=
  if l.any (fun p => p.1 = k) then
    l.map (fun p => if p.1 = k then (k, v) else p)
  else l ++ [(k, v)]

/-- The session cache dictionary: `session_id ↦ session`. -/
abbrev SessionEntries := PyDict AWSSession

/-- `AWSSessionCache`. -/
structure AWSSessionCache where
  sessions : SessionEntries := []
  max_sessions : Nat := 100
  deriving DecidableEq, Repr

/-- `cleanup_expired`: remove the expired entries, returning the new cache and
the number removed. -/
def AWSSessionCache.cleanup_expired (c : AWSSessionCache) (now : Int) :
    AWSSessionCache × Nat :=
  let kept := c.sessions.filter (fun p => !(p.2.is_expired now))
  ({ c with sessions := kept }, c.sessions.length - kept.length)

/-- `min(keys, key=created_at)` as Python computes it: the first entry in
iteration order whose `created_at` is minimal (`min` is stable, and later
elements replace the current best only when strictly smaller). -/
def oldestEntry : SessionEntries → Option (String × AWSSession)
  | [] => none
  | p :: rest =>
    match oldestEntry rest with
    | none => some p
    | some q => if q.2.created_at < p.2.created_at then some q else some p

/-- `AWSSessionCache.add_session`.  Cleans expired entries, then when still at
capacity removes the entry with the oldest `created_at` before inserting.
Result is `none` exactly when the Python code would raise (`min` over an empty
dict with `max_sessions = 0`). -/
def AWSSessionCache.add_session (c : AWSSessionCache) (now : Int)
    (s : AWSSession) : Option AWSSessionCache :=
  let cleaned := (c.cleanup_expired now).1
  if c.max_sessions ≤ cleaned.sessions.length then
    match oldestEntry cleaned.sessions with
    | none => none
    | some oldest =>
      let remaining := cleaned.sessions.filter (fun p => p.1 ≠ oldest.1)
      some { cleaned with sessions := dictInsert remaining s.session_id s }
  else
    some { cleaned with sessions := dictInsert cleaned.sessions s.session_id s }

/-- `AWSSessionCache.get_session`: lookup by id; an expired hit is deleted and
reported as a miss.  Returns the result together with the updated cache. -/
def AWSSessionCache.get_session (c : AWSSessionCache) (now : Int)
    (session_id : String) : Option AWSSession × AWSSessionCache :=
  match c.sessions.find? (fun p => p.1 = session_id) with
  | none => (none, c)
  | some p =>
    if p.2.is_expired now then
      (none, { c with sessions := c.sessions.filter (fun q => q.1 ≠ session_id) })
    else (some p.2, c)

/-- `AWSSessionCache.get_session_by_profile`: first non-expired session
matching profile and region, in iteration order. -/
def AWSSessionCache.get_session_by_profile (c : AWSSessionCache) (now : Int)
    (profile_name region : String) : Option AWSSession :=
  (c.sessions.find? (fun p =>
      p.2.profile_name = profile_name && p.2.region = region &&
      !(p.2.is_expired now))).map (·.2)

/-- Repeated `add_session` calls, left to right (`none` as soon as one call
would raise). -/
def AWSSessionCache.addMany (c : AWSSessionCache) (now : Int) :
    List AWSSession → Option AWSSessionCache
  | [] => some c
  | s :: rest =>
    match c.add_session now s with
    | none => none
    | some c' => c'.addMany now rest

/-- A concrete live session used to exercise the cache-eviction theorem. -/
def evictionWitnessSession (id : String) (created : Int) : AWSSession :=
  { profile_name := "p", region := "r", session_id := id,
    created_at := created, expires_at := some 1000 }

/-! ## Credentials reader (`app/aws/credentials.py`)

The two INI files are modelled as parsed section lists (section name ↦ list of
`key = value` pairs); `ConfigParser` read failures are outside the model, the
functions below receive the parsed content directly. -/

/-- A parsed INI file: ordered sections of ordered `key = value` pairs. -/
structure IniFile where
  sections : PyDict (PyDict String) := []
  deriving DecidableEq, Repr

/-- `config.has_section name`. -/
def IniFile.has_section (f : IniFile) (name : String) : Bool :=
  dictHasKey f.sections name

/-- `dict(config.items(name))` for a section that exists. -/
def IniFile.lookupSection (f : IniFile) (name : String) : Option (PyDict String) :=
  dictGet f.sections name

/-- `_parse_credentials_section`: requires truthy access key and secret key,
keeps the session token as-is. -/
def parseCredentialsSection (sec : PyDict String) : Option AWSCredential :=
  match dictGet sec "aws_access_key_id", dictGet sec "aws_secret_access_key" with
  | some access_key, some secret_key =>
    if access_key = "" || secret_key = "" then none
    else some { aws_access_key_id := access_key
                aws_secret_access_key := secret_key
                aws_session_token := dictGet sec "aws_session_token" }
  | _, _ => none

/-- `_parse_config_section`: copy the recognized keys into profile data;
`duration_seconds` is parsed as an integer and dropped when unparsable. -/
def parseConfigSection (sec : PyDict String) : ProfileData :=
  { region := dictGet sec "region"
    output := dictGet sec "output"
    role_arn := dictGet sec "role_arn"
    source_profile := dictGet sec "source_profile"
    external_id := dictGet sec "external_id"
    mfa_serial := dictGet sec "mfa_serial"
    role_session_name := dictGet sec "role_session_name"
    duration_seconds := (dictGet sec "duration_seconds").bind String.toInt?
    sso_start_url := dictGet sec "sso_start_url"
    sso_region := dictGet sec "sso_region"
    sso_account_id := dictGet sec "sso_account_id"
    sso_role_name := dictGet sec "sso_role_name"
    sso_session := dictGet sec "sso_session"
    web_identity_token_file := dictGet sec "web_identity_token_file"
    credential_source := dictGet sec "credential_source" }

/-- `_resolve_sso_session`: when the profile data carries an `sso_session` key,
overlay `sso_start_url` / `sso_region` / `sso_registration_scopes` from the
matching `sso-session <name>` config section (section values win). -/
def resolveSsoSession (configFile : IniFile) (d : ProfileData) : ProfileData :=
  match d.sso_session with
  | none => d
  | some session_name =>
    match configFile.lookupSection ("sso-session " ++ session_name) with
    | none => d
    | some sec =>
      let d := match dictGet sec "sso_start_url" with
        | some v => { d with sso_start_url := some v }
        | none => d
      let d := match dictGet sec "sso_region" with
        | some v => { d with sso_region := some v }
        | none => d
      match dictGet sec "sso_registration_scopes" with
      | some v => { d with sso_registration_scopes := some v }
      | none => d

/-- The name contributed by one config-file section in `get_profile_names`:
`default` kept as-is, `profile ` prefix stripped, other sections ignored.
`str.startswith` and slicing act on characters, hence the `.data` lists. -/
def configSectionProfileName (section_name : String) : Option String :=
  if section_name = "default" then some "default"
  else if "profile ".data.isPrefixOf section_name.data then
    some (section_name.drop 8)
  else none

/-- `get_profile_names`: the set union of credential-file section names and
config-file profile names, returned sorted (Python `sorted(list(set))`). -/
def get_profile_names (credFile configFile : IniFile) : List String :=
  let names := credFile.sections.map (·.1) ++
    configFile.sections.filterMap (fun p => configSectionProfileName p.1)
  names.dedup.insertionSort (· ≤ ·)

/-- The errors `read_profile` raises.  `profileNotFound` models
`AWSProfileNotFoundError(f"Profile '{name}' not found. Available profiles:
{available}")`: the interpolated pieces are carried structurally. -/
inductive ReadProfileError where
  | profileNotFound (profile_name : String) (available_profiles : List String)
  deriving DecidableEq, Repr

/-- The merged config-file data used by `read_profile`: the parsed config
section (when present) with SSO-session resolution applied. -/
def mergedConfigData (configFile : IniFile) (profile_name : String) :
    ProfileData :=
  let config_section_name :=
    if profile_name = "default" then "default" else "profile " ++ profile_name
  match configFile.lookupSection config_section_name with
  | some sec => resolveSsoSession configFile (parseConfigSection sec)
  | none => {}

/-- The parsed static credential used by `read_profile`. -/
def readCredentials (credFile : IniFile) (profile_name : String) :
    Option AWSCredential :=
  (credFile.lookupSection profile_name).bind parseCredentialsSection

/-- `read_profile`. -/
def read_profile (credFile configFile : IniFile) (profile_name : String) :
    Except ReadProfileError AWSProfile :=
  let credentials := readCredentials credFile profile_name
  let profile_data := mergedConfigData configFile profile_name
  if credentials.isNone && profile_data.role_arn.isNone &&
     profile_data.sso_start_url.isNone && profile_data.sso_session.isNone &&
     profile_data.web_identity_token_file.isNone then
    .error (.profileNotFound profile_name (get_profile_names credFile configFile))
  else
    .ok (AWSProfile.mk'
      { profile_data with name := profile_name, credentials := credentials })

/-- Result of `resolve_profile_chain`; `cycleError chain` models
`AWSCredentialError(f"Circular profile reference detected:
{' -> '.join(chain)}")`, carrying the interpolated chain structurally.
`outOfFuel` marks insufficient fuel, never reached with the default fuel. -/
inductive ChainResult where
  | ok (chain : List String)
  | cycleError (chain : List String)
  | outOfFuel
  deriving DecidableEq, Repr

/-- The `while current_profile:` loop of `resolve_profile_chain`.  The cycle
check precedes the visit, a `ProfileNotFoundError` terminates the chain, and
`None` or `""` (falsy) terminate normally. -/
def resolveChainLoop (credFile configFile : IniFile) :
    Nat → Option String → List String → List String → ChainResult
  | 0, _, _, _ => .outOfFuel
  | _ + 1, none, chain, _ => .ok chain
  | fuel + 1, some name, chain, visited =>
    if name = "" then .ok chain
    else if name ∈ visited then .cycleError chain
    else
      match read_profile credFile configFile name with
      | .error _ => .ok (chain ++ [name])
      | .ok p =>
        resolveChainLoop credFile configFile fuel p.data.source_profile
          (chain ++ [name]) (visited ++ [name])

/-- `resolve_profile_chain`.  The loop visits a fresh readable profile each
iteration, so `sections + 2` fuel can never run out. -/
def resolve_profile_chain (credFile configFile : IniFile)
    (profile_name : String) : ChainResult :=
  resolveChainLoop credFile configFile
    (credFile.sections.length + configFile.sections.length + 2)
    (some profile_name) [] []

/-! ## Session manager (`app/aws/session_manager.py`)

The network side of `_create_sso_session` (the `boto3.Session` construction
and the STS `get_caller_identity` probe) is an external call; it enters the
model as an explicit outcome parameter `stsResult` (`none` = the probe
succeeded, `some msg` = it raised an exception whose string form is `msg`). -/

/-- Errors raised by the modelled session-manager paths. -/
inductive SessionManagerError where
  | missingSsoConfig (profile_name : String)
  | ssoLoginRequired (profile_name : String)
  | ssoSessionFailed (profile_name : String) (msg : String)
  | noCredentialsInCachedSession (session_id : String)
  deriving DecidableEq, Repr

/-- `"SSO" in str(e) or "sso" in str(e)` (substring test on characters). -/
def containsSsoSignal (msg : String) : Bool :=
  decide ("SSO".data <:+: msg.data) || decide ("sso".data <:+: msg.data)

/-- `_create_sso_session`: validates the SSO fields, probes STS through
profile-name resolution, and on success caches metadata only — the
`credentials` field of the returned session is `None`. -/
def createSsoSession (p : AWSProfile) (region session_id : String) (now : Int)
    (stsResult : Option String) : Except SessionManagerError AWSSession :=
  if !truthy p.data.sso_start_url || !truthy p.data.sso_account_id ||
     !truthy p.data.sso_role_name then
    .error (.missingSsoConfig p.data.name)
  else
    match stsResult with
    | some msg =>
      if containsSsoSignal msg then .error (.ssoLoginRequired p.data.name)
      else .error (.ssoSessionFailed p.data.name msg)
    | none =>
      .ok { profile_name := p.data.name
            region := region
            session_id := session_id
            created_at := now
            expires_at := some (now + 3600)
            credentials := none
            is_role_session := true
            role_arn := some ("arn:aws:iam::" ++ p.data.sso_account_id.getD ""
              ++ ":role/" ++ p.data.sso_role_name.getD "") }

/-- The boto3 session handle that `_create_boto3_session_from_cached` builds:
either profile-name-based resolution or explicit credential fields. -/
inductive Boto3SessionSpec where
  | byProfile (profile_name region : String)
  | byCredentials (aws_access_key_id aws_secret_access_key
      aws_session_token : Option String) (region : String)
  deriving DecidableEq, Repr

/-- `_create_boto3_session_from_cached`: role sessions without stored
credentials are rebuilt by profile name; other sessions need their cached
credential fields (an empty session token is normalized to `None`). -/
def createBoto3SessionFromCached (s : AWSSession) :
    Except SessionManagerError Boto3SessionSpec :=
  if s.is_role_session && s.credentials.isNone then
    .ok (.byProfile s.profile_name s.region)
  else
    match s.credentials with
    | none => .error (.noCredentialsInCachedSession s.session_id)
    | some c =>
      let session_token := match c.aws_session_token with
        | some "" => none
        | t => t
      .ok (.byCredentials c.aws_access_key_id c.aws_secret_access_key
        session_token s.region)

/-! ## Service client factory (`app/aws/client_factory.py`) -/

/-- `RegionAvailability` enum. -/
inductive RegionAvailability where
  | available
  | unavailable
  | limited
  | unknown
  deriving DecidableEq, Repr

/-- An untyped Python value as stored in `service_availability_cache`: the
code writes nested dicts (`cache[service][region] = {'availability': …,
'cached_at': …}`) but reads flat keys, so the model keeps the dynamic
typing. -/
inductive PyVal where
  | availability (a : RegionAvailability)
  | timestamp (t : Int)
  | dict (entries : List (String × PyVal))

/-- `dictGet` specialised to `PyVal` dictionaries. -/
def pyGet (l : List (String × PyVal)) (k : String) : Option PyVal :=
  (l.find? (fun p => p.1 = k)).map (·.2)

/-- `dictInsert` specialised to `PyVal` dictionaries. -/
def pySet (l : List (String × PyVal)) (k : String) (v : PyVal) :
    List (String × PyVal) :=
  if l.any (fun p => p.1 = k) then
    l.map (fun p => if p.1 = k then (k, v) else p)
  else l ++ [(k, v)]

/-- The hardcoded global-service allow-list of `check_service_availability`. -/
def globalServices : List String := ["iam", "cloudfront", "route53", "s3"]

/-- How one call to `check_service_availability` ended: a returned status, or
a dynamic-type error the Python code would raise on a malformed cache value
(unreachable from the states this code itself produces). -/
inductive AvailOutcome where
  | returned (a : RegionAvailability)
  | crashed
  deriving Repr

/-- `check_service_availability`.  `available_regions` is the result of the
external `session.get_available_regions(service_name)` call (`none` = it
raised, handled by the blanket `except` as `unknown`).  Returns the outcome,
the updated cache, and whether the fresh region-metadata lookup ran. -/
def checkServiceAvailability (cache : List (String × PyVal)) (now : Int)
    (service_name region : String) (available_regions : Option (List String)) :
    AvailOutcome × List (String × PyVal) × Bool :=
  let fresh : AvailOutcome × List (String × PyVal) × Bool :=
    match available_regions with
    | none => (.returned .unknown, cache, true)
    | some regions =>
      let availability :=
        if region ∈ regions then RegionAvailability.available
        else if service_name ∈ globalServices then RegionAvailability.available
        else RegionAvailability.unavailable
      let cache1 :=
        if (pyGet cache service_name).isSome then cache
        else pySet cache service_name (.dict [])
      match pyGet cache1 service_name with
      | some (.dict m) =>
        let entry := PyVal.dict [("availability", .availability availability),
                                 ("cached_at", .timestamp now)]
        (.returned availability, pySet cache1 service_name (.dict (dictInsert m region entry)), true)
      | _ =>
        -- `cache[service_name][region] = …` on a non-dict raises `TypeError`,
        -- swallowed by the blanket `except` which returns `unknown`
        (.returned .unknown, cache1, true)
  let cache_key := service_name ++ ":" ++ region
  match pyGet cache cache_key with
  | none => fresh
  | some (.dict cached_result) =>
    match pyGet cached_result "cached_at" with
    | none => fresh
    | some (.timestamp t) =>
      if now - t < 86400 then
        match pyGet cached_result "availability" with
        | some (.availability a) => (.returned a, cache, false)
        | _ => (.crashed, cache, false)
      else fresh
    | some _ => (.crashed, cache, false)
  | some _ => (.crashed, cache, false)

/-- How one attempt of the `_create_client_with_retry` loop ends, classified
by the `except` clauses of the source. -/
inductive AttemptOutcome where
  | ok
  | credentialError (msg : String)
  | connectionError (msg : String)
  | otherError (msg : String)
  deriving DecidableEq, Repr

/-- Result of `_create_client_with_retry`: the 1-based attempt on which the
client was returned together with the backoff delays slept (in seconds), or
the `AWSServiceError` message raised together with the delays slept. -/
inductive RetryResult where
  | success (attempt : Nat) (delays : List Nat)
  | failure (error : String) (delays : List Nat)
  deriving DecidableEq, Repr

/-- `max_retries = 3` in `_create_client_with_retry`. -/
def max_retries : Nat := 3

/-- `base_delay = 1.0` (seconds); every delay the code computes is an
integral number of seconds, so the model uses `Nat`. -/
def base_delay : Nat := 1

/-- The `for attempt in range(max_retries)` loop of
`_create_client_with_retry`, with the remaining iteration count as fuel. -/
def createClientWithRetryAux (outcomes : Nat → AttemptOutcome) :
    Nat → Nat → List Nat → RetryResult
  | 0, _, delays =>
    .failure "Failed to create client after 3 attempts" delays
  | remaining + 1, attempt, delays =>
    match outcomes attempt with
    | .ok => .success (attempt + 1) delays
    | .credentialError m => .failure ("Credential error: " ++ m) delays
    | .connectionError m =>
      if attempt = max_retries - 1 then
        .failure ("Connection error: " ++ m) delays
      else
        createClientWithRetryAux outcomes remaining (attempt + 1)
          (delays ++ [base_delay * 2 ^ attempt])
    | .otherError m =>
      if attempt = max_retries - 1 then
        .failure ("Client creation error: " ++ m) delays
      else
        createClientWithRetryAux outcomes remaining (attempt + 1)
          (delays ++ [base_delay * 2 ^ attempt])

/-- `_create_client_with_retry`, as a function of the per-attempt outcomes. -/
def createClientWithRetry (outcomes : Nat → AttemptOutcome) : RetryResult :=
  createClientWithRetryAux outcomes max_retries 0 []

/-! ## Theorems -/

/-- C8: for every session with `expires_at` set, `should_refresh` with the
15-minute threshold is true iff `now ≥ expires_at − 15min`; and immediately
after a refresh moves `expires_at` more than 15 minutes past `now`,
`should_refresh` is false. -/
theorem c8_should_refresh_iff (s : AWSSession) (now e : Int)
    (h : s.expires_at = some e) :
    (s.should_refresh now 15 = true ↔ now ≥ e - 15 * 60) ∧
    (∀ e', now + 15 * 60 < e' →
      ({ s with expires_at := some e' } : AWSSession).should_refresh now 15
        = false) := by
  constructor
  · simp only [AWSSession.should_refresh, AWSSession.time_until_expiry, h]
    split_ifs with h1 <;> simp <;> omega
  · intro e' he'
    simp only [AWSSession.should_refresh, AWSSession.time_until_expiry]
    split_ifs with h1 <;> simp <;> omega

/-- Witness for `c8_should_refresh_iff` at a concrete session. -/
theorem c8_should_refresh_iff_witness :
    (({ profile_name := "default", region := "us-east-1", session_id := "sid",
        created_at := 0, expires_at := some 1000 } : AWSSession).should_refresh
          200 15 = true ↔ (200 : Int) ≥ 1000 - 15 * 60) ∧
    (∀ e', (200 : Int) + 15 * 60 < e' →
      ({ profile_name := "default", region := "us-east-1", session_id := "sid",
         created_at := 0, expires_at := some e' } : AWSSession).should_refresh
           200 15 = false) :=
  c8_should_refresh_iff
    { profile_name := "default", region := "us-east-1", session_id := "sid",
      created_at := 0, expires_at := some 1000 } 200 1000 rfl

/-- C5: the profile kind auto-detected by `AWSProfile.__init__` is determined
by field presence with precedence SSO > AssumedRole > Federated >
SessionToken > StaticUser. -/
theorem c5_profile_kind_precedence (d : ProfileData) :
    (detectProfileType d = .sso ↔
      (truthy d.sso_start_url || truthy d.sso_session) = true) ∧
    (detectProfileType d = .iam_role ↔
      (!(truthy d.sso_start_url || truthy d.sso_session) &&
        truthy d.role_arn) = true) ∧
    (detectProfileType d = .federated ↔
      (!(truthy d.sso_start_url || truthy d.sso_session) &&
        !truthy d.role_arn && truthy d.web_identity_token_file) = true) ∧
    (detectProfileType d = .session ↔
      (!(truthy d.sso_start_url || truthy d.sso_session) &&
        !truthy d.role_arn && !truthy d.web_identity_token_file &&
        credentialsHaveToken d) = true) ∧
    (detectProfileType d = .iam_user ↔
      (!(truthy d.sso_start_url || truthy d.sso_session) &&
        !truthy d.role_arn && !truthy d.web_identity_token_file &&
        !credentialsHaveToken d) = true) := by
  cases hs : truthy d.sso_start_url <;> cases ht : truthy d.sso_session <;>
    cases hr : truthy d.role_arn <;>
    cases hw : truthy d.web_identity_token_file <;>
    cases hc : credentialsHaveToken d <;>
    simp [detectProfileType, hs, ht, hr, hw, hc]

/-- C1: every session the SSO creation path returns carries no cached
credential, and is later rebuilt by profile-name-based resolution, never from
a stored secret. -/
theorem c1_sso_sessions_never_cache_credentials
    (p : AWSProfile) (region session_id : String) (now : Int)
    (stsResult : Option String) (s : AWSSession)
    (h : createSsoSession p region session_id now stsResult = .ok s) :
    s.credentials = none ∧ s.is_role_session = true ∧
    s.profile_name = p.data.name ∧
    createBoto3SessionFromCached s = .ok (.byProfile s.profile_name s.region) := by
  revert h
  simp only [createSsoSession]
  split_ifs with h1
  · intro h; cases h
  · match stsResult with
    | some msg =>
      simp only
      split_ifs <;> (intro h; cases h)
    | none =>
      intro h
      cases h
      refine ⟨rfl, rfl, rfl, ?_⟩
      simp [createBoto3SessionFromCached]

/-- Witness for `c1_sso_sessions_never_cache_credentials` at a concrete SSO
profile. -/
theorem c1_sso_sessions_never_cache_credentials_witness :
    ∃ s, createSsoSession
        (AWSProfile.mk' { name := "dev"
                          sso_start_url := some "https://x"
                          sso_account_id := some "123"
                          sso_role_name := some "Admin" })
        "us-east-1" "sid-1" 0 none = .ok s ∧
      s.credentials = none ∧ s.is_role_session = true ∧
      s.profile_name = "dev" ∧
      createBoto3SessionFromCached s = .ok (.byProfile s.profile_name s.region) := by
  refine ⟨_, rfl, ?_⟩
  exact c1_sso_sessions_never_cache_credentials
    (AWSProfile.mk' { name := "dev"
                      sso_start_url := some "https://x"
                      sso_account_id := some "123"
                      sso_role_name := some "Admin" })
    "us-east-1" "sid-1" 0 none _ rfl

/-- C3: `_create_client_with_retry` makes up to 3 attempts.  A credential
error on any attempt fails immediately with a service error, no retry and no
further delay; connectivity and other errors back off `base · 2^attempt`
seconds (1s then 2s); two transient connectivity failures followed by success
succeed on the 3rd attempt with delays 1s and 2s; exhausting all attempts
wraps the last cause into a service error. -/
theorem c3_client_retry_backoff :
    (∀ f m, f 0 = AttemptOutcome.credentialError m →
      createClientWithRetry f = .failure ("Credential error: " ++ m) []) ∧
    (∀ f m e₀, (f 0 = AttemptOutcome.connectionError e₀ ∨
        f 0 = AttemptOutcome.otherError e₀) →
      f 1 = AttemptOutcome.credentialError m →
      createClientWithRetry f = .failure ("Credential error: " ++ m) [1]) ∧
    (∀ f m e₀ e₁, (f 0 = AttemptOutcome.connectionError e₀ ∨
        f 0 = AttemptOutcome.otherError e₀) →
      (f 1 = AttemptOutcome.connectionError e₁ ∨
        f 1 = AttemptOutcome.otherError e₁) →
      f 2 = AttemptOutcome.credentialError m →
      createClientWithRetry f = .failure ("Credential error: " ++ m) [1, 2]) ∧
    (∀ f m₀ m₁, f 0 = AttemptOutcome.connectionError m₀ →
      f 1 = AttemptOutcome.connectionError m₁ →
      f 2 = AttemptOutcome.ok →
      createClientWithRetry f = .success 3 [1, 2]) ∧
    (∀ f e₀ e₁ m, (f 0 = AttemptOutcome.connectionError e₀ ∨
        f 0 = AttemptOutcome.otherError e₀) →
      (f 1 = AttemptOutcome.connectionError e₁ ∨
        f 1 = AttemptOutcome.otherError e₁) →
      f 2 = AttemptOutcome.connectionError m →
      createClientWithRetry f = .failure ("Connection error: " ++ m) [1, 2]) ∧
    (∀ f e₀ e₁ m, (f 0 = AttemptOutcome.connectionError e₀ ∨
        f 0 = AttemptOutcome.otherError e₀) →
      (f 1 = AttemptOutcome.connectionError e₁ ∨
        f 1 = AttemptOutcome.otherError e₁) →
      f 2 = AttemptOutcome.otherError m →
      createClientWithRetry f
        = .failure ("Client creation error: " ++ m) [1, 2]) := by
  refine ⟨?_, ?_, ?_, ?_, ?_, ?_⟩
  · intro f m h0
    simp [createClientWithRetry, createClientWithRetryAux, h0]
  · rintro f m e₀ (h0 | h0) h1 <;>
      simp [createClientWithRetry, createClientWithRetryAux, h0, h1,
        max_retries, base_delay]
  · rintro f m e₀ e₁ (h0 | h0) (h1 | h1) h2 <;>
      simp [createClientWithRetry, createClientWithRetryAux, h0, h1, h2,
        max_retries, base_delay]
  · intro f m₀ m₁ h0 h1 h2
    simp [createClientWithRetry, createClientWithRetryAux, h0, h1, h2,
      max_retries, base_delay]
  · rintro f e₀ e₁ m (h0 | h0) (h1 | h1) h2 <;>
      simp [createClientWithRetry, createClientWithRetryAux, h0, h1, h2,
        max_retries, base_delay]
  · rintro f e₀ e₁ m (h0 | h0) (h1 | h1) h2 <;>
      simp [createClientWithRetry, createClientWithRetryAux, h0, h1, h2,
        max_retries, base_delay]

/-- Witness for `c3_client_retry_backoff`: a credential error fails at once
with no delay, and two connectivity failures then success succeed on the 3rd
attempt after 1s and 2s. -/
theorem c3_client_retry_backoff_witness :
    createClientWithRetry (fun _ => .credentialError "no creds")
      = .failure ("Credential error: " ++ "no creds") [] ∧
    createClientWithRetry (fun n =>
        if n < 2 then .connectionError "timeout" else .ok)
      = .success 3 [1, 2] :=
  ⟨c3_client_retry_backoff.1 (fun _ => .credentialError "no creds")
      "no creds" rfl,
    (c3_client_retry_backoff.2.2.2.1 (fun n =>
        if n < 2 then .connectionError "timeout" else .ok)
      "timeout" "timeout" rfl rfl rfl)⟩

/-- C9: session-cache lookups never return an expired session: `get_session`
on an expired entry deletes exactly that key and reports a miss, leaving every
other entry in place and adding nothing, and both lookups only ever return
non-expired sessions (`get_session_by_profile` also matches profile and
region). -/
theorem c9_cache_lookups_skip_expired (c : AWSSessionCache) (now : Int) :
    (∀ sid s, dictGet c.sessions sid = some s → s.is_expired now = true →
      (c.get_session now sid).1 = none ∧
      dictGet (c.get_session now sid).2.sessions sid = none ∧
      (∀ q ∈ c.sessions, q.1 ≠ sid → q ∈ (c.get_session now sid).2.sessions) ∧
      (∀ q ∈ (c.get_session now sid).2.sessions, q ∈ c.sessions)) ∧
    (∀ sid s, (c.get_session now sid).1 = some s → s.is_expired now = false) ∧
    (∀ pn r s, c.get_session_by_profile now pn r = some s →
      s.is_expired now = false ∧ s.profile_name = pn ∧ s.region = r) := by
  refine ⟨?_, ?_, ?_⟩
  · intro sid s hget hexp
    simp only [dictGet, Option.map_eq_some'] at hget
    obtain ⟨p, hfind, hsnd⟩ := hget
    subst hsnd
    have hres : c.get_session now sid =
        (none, { c with sessions := c.sessions.filter (fun q => q.1 ≠ sid) }) := by
      simp [AWSSessionCache.get_session, hfind, hexp]
    rw [hres]
    refine ⟨rfl, ?_, ?_, ?_⟩
    · simp only [dictGet, Option.map_eq_none']
      rw [List.find?_eq_none]
      intro q hq
      have h2 := (List.mem_filter.mp hq).2
      simpa using h2
    · intro q hq hne
      exact List.mem_filter_of_mem hq (by simpa using hne)
    · intro q hq
      exact List.mem_of_mem_filter hq
  · intro sid s hres
    simp only [AWSSessionCache.get_session] at hres
    rcases hfind : c.sessions.find? (fun p => p.1 = sid) with _ | p
    · simp [hfind] at hres
    · simp only [hfind] at hres
      by_cases hexp : p.2.is_expired now = true
      · simp [hexp] at hres
      · simp [hexp] at hres
        rw [← hres]
        simpa using hexp
  · intro pn r s hres
    simp only [AWSSessionCache.get_session_by_profile, Option.map_eq_some']
      at hres
    obtain ⟨p, hfind, hsnd⟩ := hres
    subst hsnd
    have := List.find?_some hfind
    simp only [Bool.and_eq_true, Bool.not_eq_true', decide_eq_true_eq] at this
    exact ⟨this.2, this.1.1, this.1.2⟩

/-- Witness for `c9_cache_lookups_skip_expired` at a two-entry cache with one
expired entry. -/
theorem c9_cache_lookups_skip_expired_witness :
    let oldSession : AWSSession :=
      { profile_name := "default", region := "us-east-1", session_id := "a",
        created_at := 0, expires_at := some 10 }
    let liveSession : AWSSession :=
      { profile_name := "dev", region := "eu-west-1", session_id := "b",
        created_at := 5, expires_at := some 1000 }
    let c : AWSSessionCache :=
      { sessions := [("a", oldSession), ("b", liveSession)] }
    ((c.get_session 100 "a").1 = none ∧
      dictGet (c.get_session 100 "a").2.sessions "a" = none ∧
      (∀ q ∈ c.sessions, q.1 ≠ "a" → q ∈ (c.get_session 100 "a").2.sessions) ∧
      (∀ q ∈ (c.get_session 100 "a").2.sessions, q ∈ c.sessions)) := by
  intro oldSession liveSession c
  exact (c9_cache_lookups_skip_expired c 100).1 "a" oldSession rfl rfl

/-- C2 (code bug): `check_service_availability` stores results under
`cache[service][region]` but looks them up under the flat key
`f"{service}:{region}"`, so the 24-hour cache can never be hit: after a first
call has computed and stored the status for `("s3", "us-east-1")`, a second
call within 24 hours still performs the fresh region-metadata lookup instead
of returning the cached status. -/
theorem c2_availability_cache_never_hits :
    (checkServiceAvailability [] 0 "s3" "us-east-1"
        (some ["us-east-1"])).1 = .returned .available ∧
    (checkServiceAvailability [] 0 "s3" "us-east-1"
        (some ["us-east-1"])).2.2 = true ∧
    (∃ m, pyGet (checkServiceAvailability [] 0 "s3" "us-east-1"
          (some ["us-east-1"])).2.1 "s3" = some (.dict m) ∧
        (pyGet m "us-east-1").isSome = true) ∧
    pyGet (checkServiceAvailability [] 0 "s3" "us-east-1"
        (some ["us-east-1"])).2.1 "s3:us-east-1" = none ∧
    (checkServiceAvailability
        (checkServiceAvailability [] 0 "s3" "us-east-1"
          (some ["us-east-1"])).2.1
        100 "s3" "us-east-1" (some ["us-east-1"])).2.2 = true :=
  ⟨rfl, rfl, ⟨_, rfl, rfl⟩, rfl, rfl⟩

/-- Stripping the `profile ` prefix from `"profile " ++ x` yields `x`. -/
lemma drop_eight_profile_append (x : String) : ("profile " ++ x).drop 8 = x := by
  obtain ⟨xd⟩ := x
  rw [String.drop_eq, String.data_append]
  rfl

/-- A string starting with `profile ` is that prefix plus its tail. -/
lemma eq_profile_append_of_isPrefixOf {n : String}
    (h : "profile ".data.isPrefixOf n.data = true) :
    n = "profile " ++ n.drop 8 := by
  obtain ⟨t, ht⟩ := List.isPrefixOf_iff_prefix.mp h
  obtain ⟨nd⟩ := n
  apply String.ext
  rw [String.data_append, String.drop_eq]
  simp only at ht ⊢
  rw [← ht]
  rfl

/-- No string of the form `"profile " ++ x` equals `"default"`. -/
lemma profile_append_ne_default (x : String) : ("profile " ++ x) ≠ "default" := by
  intro h
  have := congrArg (fun s => s.data.length) h
  simp [String.data_append] at this

/-- Characterization of the name contributed by one config-file section. -/
lemma configSectionProfileName_eq_some (n x : String) :
    configSectionProfileName n = some x ↔
      (n = "default" ∧ x = "default") ∨ n = "profile " ++ x := by
  constructor
  · unfold configSectionProfileName
    split_ifs with h1 h2
    · intro h
      cases h
      exact .inl ⟨h1, rfl⟩
    · intro h
      cases h
      exact .inr (eq_profile_append_of_isPrefixOf h2)
    · intro h
      cases h
  · rintro (⟨hn, hx⟩ | hn)
    · subst hn
      subst hx
      rfl
    · subst hn
      unfold configSectionProfileName
      rw [if_neg (profile_append_ne_default x),
        if_pos (by rw [String.data_append]
                   exact List.isPrefixOf_iff_prefix.mpr (List.prefix_append _ _)),
        drop_eight_profile_append]

/-- C10: `get_profile_names` returns the union of credential-file section
names and config-file profile names (`default` kept, the `profile ` prefix
stripped), sorted ascending and duplicate-free even when a name appears in
both files. -/
theorem c10_profile_names_sorted_union (credFile configFile : IniFile) :
    (get_profile_names credFile configFile).Sorted (· ≤ ·) ∧
    (get_profile_names credFile configFile).Nodup ∧
    ∀ x, x ∈ get_profile_names credFile configFile ↔
      (x ∈ credFile.sections.map Prod.fst ∨
       (x = "default" ∧ "default" ∈ configFile.sections.map Prod.fst) ∨
       ("profile " ++ x) ∈ configFile.sections.map Prod.fst) := by
  refine ⟨List.sorted_insertionSort _ _,
    ((List.perm_insertionSort _ _).nodup_iff).mpr (List.nodup_dedup _), ?_⟩
  intro x
  simp only [get_profile_names]
  rw [(List.perm_insertionSort _ _).mem_iff, List.mem_dedup, List.mem_append]
  simp only [List.mem_filterMap, configSectionProfileName_eq_some, List.mem_map]
  constructor
  · rintro (h | ⟨p, hp, ⟨h1, h2⟩ | h1⟩)
    · exact .inl (by simpa using h)
    · exact .inr (.inl ⟨h2, ⟨p, hp, h1⟩⟩)
    · exact .inr (.inr ⟨p, hp, h1⟩)
  · rintro (h | ⟨hx, p, hp, h1⟩ | ⟨p, hp, h1⟩)
    · exact .inl (by simpa using h)
    · exact .inr ⟨p, hp, .inl ⟨h1, hx⟩⟩
    · exact .inr ⟨p, hp, .inr h1⟩

/-- C6: `read_profile` fails exactly when the merged profile has no static
credential and none of role ARN, SSO start URL, SSO session group, or
web-identity token file are present; the only error it raises is
`ProfileNotFound` carrying the full discoverable profile-name list. -/
theorem c6_read_profile_not_found (credFile configFile : IniFile)
    (name : String) :
    (∀ e, read_profile credFile configFile name = .error e →
      e = .profileNotFound name (get_profile_names credFile configFile)) ∧
    ((∃ e, read_profile credFile configFile name = .error e) ↔
      (readCredentials credFile name = none ∧
       (mergedConfigData configFile name).role_arn = none ∧
       (mergedConfigData configFile name).sso_start_url = none ∧
       (mergedConfigData configFile name).sso_session = none ∧
       (mergedConfigData configFile name).web_identity_token_file = none)) := by
  constructor
  · intro e
    simp only [read_profile]
    split_ifs with h
    · intro he
      injection he with h2
      exact h2.symm
    · intro he
      cases he
  · constructor
    · rintro ⟨e, he⟩
      revert he
      simp only [read_profile]
      split_ifs with h
      · intro _
        simpa [Bool.and_eq_true, Option.isNone_iff_eq_none, and_assoc] using h
      · intro he
        cases he
    · intro hc
      refine ⟨.profileNotFound name (get_profile_names credFile configFile), ?_⟩
      simp only [read_profile]
      split_ifs with h
      · rfl
      · exact absurd (by simpa [Bool.and_eq_true, Option.isNone_iff_eq_none,
          and_assoc] using hc) h

/-- Witness for `c6_read_profile_not_found` at concrete files: a name present
only as an output-format config section raises `ProfileNotFound` listing the
discoverable profiles. -/
theorem c6_read_profile_not_found_witness :
    let credFile : IniFile :=
      { sections := [("work", [("aws_access_key_id", "AKIA"),
                               ("aws_secret_access_key", "shh")])] }
    let configFile : IniFile :=
      { sections := [("profile empty", [("output", "json")])] }
    ∀ e, read_profile credFile configFile "empty" = .error e →
      e = .profileNotFound "empty" (get_profile_names credFile configFile) := by
  intro credFile configFile
  exact (c6_read_profile_not_found credFile configFile "empty").1

/-- A successful `read_profile` carries the `source_profile` of the merged
config data. -/
lemma read_profile_ok_source_profile (credFile configFile : IniFile)
    (nm : String) (p : AWSProfile)
    (h : read_profile credFile configFile nm = .ok p) :
    p.data.source_profile = (mergedConfigData configFile nm).source_profile := by
  revert h
  simp only [read_profile]
  split_ifs
  · intro h
    cases h
  · intro h
    injection h with h2
    rw [← h2]
    rfl

/-- C7: two profiles whose `source_profile` links point at each other make
`resolve_profile_chain` raise the circular-reference error, whose reported
path contains both names; and in general, whenever the walk arrives at a
profile name already on its chain, it raises the error naming the full chain
walked so far. -/
theorem c7_profile_chain_cycle_detected :
    (∀ (credFile configFile : IniFile) (A B : String) (pA pB : AWSProfile),
      A ≠ B → A ≠ "" → B ≠ "" →
      read_profile credFile configFile A = .ok pA →
      pA.data.source_profile = some B →
      read_profile credFile configFile B = .ok pB →
      pB.data.source_profile = some A →
      resolve_profile_chain credFile configFile A = .cycleError [A, B] ∧
      A ∈ [A, B] ∧ B ∈ [A, B]) ∧
    (∀ (credFile configFile : IniFile) (fuel : Nat) (nm : String)
        (chain : List String), nm ≠ "" → nm ∈ chain →
      resolveChainLoop credFile configFile (fuel + 1) (some nm) chain chain
        = .cycleError chain) := by
  constructor
  · intro credFile configFile A B pA pB hAB hA0 hB0 hA hAsrc hB hBsrc
    refine ⟨?_, by simp, by simp⟩
    have hcg : configFile.sections ≠ [] := by
      intro h0
      have hsrc := read_profile_ok_source_profile credFile configFile A pA hA
      obtain ⟨secs⟩ := configFile
      simp only at h0
      subst h0
      rw [hAsrc] at hsrc
      simp [mergedConfigData, IniFile.lookupSection, dictGet] at hsrc
    have hlen : 1 ≤ configFile.sections.length := List.length_pos.mpr hcg
    obtain ⟨n, hn⟩ : ∃ n, credFile.sections.length + configFile.sections.length
        + 2 = n + 3 :=
      ⟨credFile.sections.length + configFile.sections.length - 1, by omega⟩
    rw [resolve_profile_chain, hn]
    simp [resolveChainLoop, hA0, hB0, hA, hB, hAsrc, hBsrc, hAB, Ne.symm hAB]
  · intro credFile configFile fuel nm chain h0 hmem
    simp [resolveChainLoop, h0, hmem]

/-- Witness for `c7_profile_chain_cycle_detected` at the concrete two-profile
cycle `A ↔ B`. -/
theorem c7_profile_chain_cycle_detected_witness :
    let configFile : IniFile :=
      { sections := [("profile A", [("role_arn", "arn:a"),
                                    ("source_profile", "B")]),
                     ("profile B", [("role_arn", "arn:b"),
                                    ("source_profile", "A")])] }
    resolve_profile_chain { sections := [] } configFile "A"
      = .cycleError ["A", "B"] ∧
    "A" ∈ ["A", "B"] ∧ "B" ∈ ["A", "B"] := by
  intro configFile
  exact (c7_profile_chain_cycle_detected.1 { sections := [] } configFile
    "A" "B" _ _ (by decide) (by decide) (by decide) rfl rfl rfl rfl)

/-! ### Session-cache eviction lemmas -/

/-- Everything in `dictInsert l k v` was in `l` or is the new pair. -/
lemma mem_dictInsert {α : Type} {l : PyDict α} {k : String} {v : α}
    {q : String × α} (h : q ∈ dictInsert l k v) : q ∈ l ∨ q = (k, v) := by
  unfold dictInsert at h
  split_ifs at h with hkey
  · rcases List.mem_map.mp h with ⟨p, hp, hpq⟩
    by_cases hk : p.1 = k
    · right
      rw [if_pos hk] at hpq
      exact hpq.symm
    · left
      rw [if_neg hk] at hpq
      exact hpq ▸ hp
  · rcases List.mem_append.mp h with h1 | h1
    · exact .inl h1
    · exact .inr (List.mem_singleton.mp h1)

/-- `dictInsert` appends when the key is fresh. -/
lemma dictInsert_of_not_key {α : Type} (l : PyDict α) (k : String) (v : α)
    (h : l.any (fun p => p.1 = k) = false) :
    dictInsert l k v = l ++ [(k, v)] := by
  unfold dictInsert
  rw [if_neg]
  simp [h]

/-- The entry `oldestEntry` picks comes from the list. -/
lemma oldestEntry_mem : ∀ {l : SessionEntries} {q : String × AWSSession},
    oldestEntry l = some q → q ∈ l
  | [], q, h => by cases h
  | p :: rest, q, h => by
    rw [oldestEntry] at h
    rcases hrest : oldestEntry rest with _ | r
    · simp only [hrest] at h
      injection h with h2
      subst h2
      exact List.mem_cons_self p rest
    · simp only [hrest] at h
      split_ifs at h with hlt
      · injection h with h2
        subst h2
        exact List.mem_cons_of_mem p (oldestEntry_mem hrest)
      · injection h with h2
        subst h2
        exact List.mem_cons_self p rest

/-- When the head is strictly the oldest, `oldestEntry` (Python's stable
`min`) picks the head. -/
lemma oldestEntry_cons_of_lt (p : String × AWSSession) (rest : SessionEntries)
    (h : ∀ q ∈ rest, p.2.created_at < q.2.created_at) :
    oldestEntry (p :: rest) = some p := by
  rw [oldestEntry]
  rcases hrest : oldestEntry rest with _ | r
  · rfl
  · simp only
    rw [if_neg]
    intro hlt
    exact absurd (h r (oldestEntry_mem hrest)) (by omega)

/-- `add_session` without eviction: all entries live, below capacity, fresh
key — the new session is appended. -/
lemma add_session_no_evict (now : Int) (s : AWSSession) (l : SessionEntries)
    (N : Nat)
    (hlive : ∀ p ∈ l, p.2.is_expired now = false)
    (hcap : l.length < N)
    (hfresh : l.any (fun p => p.1 = s.session_id) = false) :
    ({ sessions := l, max_sessions := N } : AWSSessionCache).add_session now s
      = some { sessions := l ++ [(s.session_id, s)], max_sessions := N } := by
  have hfilter : l.filter (fun p => !(p.2.is_expired now)) = l :=
    List.filter_eq_self.mpr (fun a ha => by simp [hlive a ha])
  simp only [AWSSessionCache.add_session, AWSSessionCache.cleanup_expired,
    hfilter]
  rw [if_neg (by omega), dictInsert_of_not_key _ _ _ hfresh]

/-- `add_session` with eviction: all entries live, at capacity, the head
strictly the oldest, keys separated — the head is evicted and the new
session appended. -/
lemma add_session_evict (now : Int) (s : AWSSession)
    (p : String × AWSSession) (rest : SessionEntries) (N : Nat)
    (hlive : ∀ q ∈ p :: rest, q.2.is_expired now = false)
    (hcap : N ≤ (p :: rest).length)
    (holdest : ∀ q ∈ rest, p.2.created_at < q.2.created_at)
    (hkeys : ∀ q ∈ rest, q.1 ≠ p.1)
    (hfresh : (p :: rest).any (fun q => q.1 = s.session_id) = false) :
    ({ sessions := p :: rest, max_sessions := N } : AWSSessionCache).add_session
        now s
      = some { sessions := rest ++ [(s.session_id, s)], max_sessions := N } := by
  have hfilter : (p :: rest).filter (fun q => !(q.2.is_expired now))
      = p :: rest :=
    List.filter_eq_self.mpr (fun a ha => by simp [hlive a ha])
  simp only [AWSSessionCache.add_session, AWSSessionCache.cleanup_expired,
    hfilter]
  rw [if_pos hcap, oldestEntry_cons_of_lt p rest holdest]
  have hrest_filter : (p :: rest).filter (fun q => q.1 ≠ p.1) = rest := by
    rw [List.filter_cons, if_neg (by simp)]
    exact List.filter_eq_self.mpr (fun a ha => by simp [hkeys a ha])
  simp only [hrest_filter]
  rw [dictInsert_of_not_key]
  simp only [List.any_cons, Bool.or_eq_false_iff] at hfresh
  simp [hfresh.2]

/-- `addMany` distributes over list append. -/
lemma addMany_append (now : Int) :
    ∀ (l₁ l₂ : List AWSSession) (c : AWSSessionCache),
      c.addMany now (l₁ ++ l₂)
        = (c.addMany now l₁).bind (fun c' => c'.addMany now l₂)
  | [], l₂, c => by simp [AWSSessionCache.addMany]
  | s :: rest, l₂, c => by
    simp only [List.cons_append, AWSSessionCache.addMany]
    cases c.add_session now s with
    | none => rfl
    | some c' => exact addMany_append now rest l₂ c'

/-- Below capacity, `addMany` with live, id-distinct, fresh sessions appends
them all in order. -/
lemma addMany_fill (now : Int) :
    ∀ (l : List AWSSession) (entries : SessionEntries) (N : Nat),
      (∀ p ∈ entries, p.2.is_expired now = false) →
      (∀ s ∈ l, s.is_expired now = false) →
      entries.length + l.length ≤ N →
      (∀ s ∈ l, entries.any (fun p => p.1 = s.session_id) = false) →
      (l.map AWSSession.session_id).Nodup →
      ({ sessions := entries, max_sessions := N } : AWSSessionCache).addMany
          now l
        = some { sessions := entries ++ l.map (fun s => (s.session_id, s)),
                 max_sessions := N }
  | [], entries, N, _, _, _, _, _ => by simp [AWSSessionCache.addMany]
  | s :: rest, entries, N, hlive, hexp, hcap, hfresh, hnodup => by
    simp only [List.length_cons] at hcap
    simp only [AWSSessionCache.addMany,
      add_session_no_evict now s entries N hlive (by omega)
        (hfresh s (List.mem_cons_self s rest))]
    have hlive' : ∀ p ∈ entries ++ [(s.session_id, s)],
        p.2.is_expired now = false := by
      intro p hp
      rcases List.mem_append.mp hp with h | h
      · exact hlive p h
      · rw [List.mem_singleton.mp h]
        exact hexp s (List.mem_cons_self s rest)
    have hfresh' : ∀ t ∈ rest,
        (entries ++ [(s.session_id, s)]).any
          (fun p => p.1 = t.session_id) = false := by
      intro t ht
      rw [List.any_append]
      have h1 := hfresh t (List.mem_cons_of_mem s ht)
      have h2 : s.session_id ≠ t.session_id := by
        simp only [List.map_cons, List.nodup_cons] at hnodup
        intro hcontra
        exact hnodup.1 (hcontra ▸ List.mem_map_of_mem AWSSession.session_id ht)
      simp [h1, h2]
    have hrec := addMany_fill now rest (entries ++ [(s.session_id, s)]) N
      hlive' (fun t ht => hexp t (List.mem_cons_of_mem s ht))
      (by simp; omega) hfresh'
      (by simpa using (List.nodup_cons.mp (by simpa using hnodup)).2)
    rw [hrec]
    simp

/-- C4: adding to the session cache first drops expired entries and, when
still at capacity, evicts the oldest-created entry: after any successful
`add_session` only the freshly added session can be expired, and inserting
`max_sessions + 1` live, id-distinct sessions of increasing `created_at` into
an empty cache leaves exactly `max_sessions` entries — all but the
earliest-created one, in order. -/
theorem c4_session_cache_eviction :
    (∀ (c : AWSSessionCache) (now : Int) (s : AWSSession)
        (c' : AWSSessionCache),
      c.add_session now s = some c' →
      ∀ q ∈ c'.sessions, q.2.is_expired now = true → q.2 = s) ∧
    (∀ (N : Nat) (now : Int) (l : List AWSSession),
      0 < N → l.length = N + 1 →
      (l.map AWSSession.session_id).Nodup →
      (∀ s ∈ l, s.is_expired now = false) →
      (l.map AWSSession.created_at).Sorted (· < ·) →
      ∃ c, ({ sessions := [], max_sessions := N } : AWSSessionCache).addMany
            now l = some c ∧
        c.sessions = (l.map (fun s => (s.session_id, s))).tail ∧
        c.sessions.length = N) := by
  constructor
  · intro c now s c' hadd q hq hexp
    simp only [AWSSessionCache.add_session, AWSSessionCache.cleanup_expired]
      at hadd
    have of_filtered : ∀ {X : SessionEntries},
        (∀ r ∈ X, r ∈ c.sessions.filter (fun p => !(p.2.is_expired now))) →
        q ∈ dictInsert X s.session_id s → q.2 = s := by
      intro X hX hmem
      rcases mem_dictInsert hmem with h | h
      · have := (List.mem_filter.mp (hX q h)).2
        rw [hexp] at this
        cases this
      · rw [h]
    split_ifs at hadd with hcap
    · rcases holdest : oldestEntry
          (c.sessions.filter (fun p => !(p.2.is_expired now))) with _ | oldest
      · rw [holdest] at hadd
        cases hadd
      · rw [holdest] at hadd
        injection hadd with h2
        rw [← h2] at hq
        exact of_filtered (fun r hr => List.mem_of_mem_filter hr) hq
    · injection hadd with h2
      rw [← h2] at hq
      exact of_filtered (fun r hr => hr) hq
  · intro N now l hN hlen hnodup hexp hsorted
    rcases List.eq_nil_or_concat l with h0 | ⟨front, z, hfz⟩
    · rw [h0] at hlen
      cases hlen
    · rw [List.concat_eq_append] at hfz
      subst hfz
      have hflen : front.length = N := by simpa using hlen
      obtain ⟨a, m, ham⟩ : ∃ a m, front = a :: m := by
        cases front with
        | nil => rw [List.length_nil] at hflen; omega
        | cons a m => exact ⟨a, m, rfl⟩
      subst ham
      have hmlen : m.length + 1 = N := by simpa using hflen
      have hfront_nodup : ((a :: m).map AWSSession.session_id).Nodup := by
        rw [List.map_append] at hnodup
        exact hnodup.of_append_left
      have hdisj : ∀ s ∈ (a :: m), s.session_id ≠ z.session_id := by
        intro s hs hcontra
        rw [List.map_append] at hnodup
        exact (List.nodup_append.mp hnodup).2.2
          (hcontra ▸ List.mem_map_of_mem AWSSession.session_id hs) (by simp)
      have hanotin : a.session_id ∉ m.map AWSSession.session_id := by
        have h := hfront_nodup
        rw [List.map_cons] at h
        exact (List.nodup_cons.mp h).1
      have hsorted' : ∀ s ∈ m ++ [z], a.created_at < s.created_at := by
        intro s hs
        rw [List.cons_append, List.map_cons] at hsorted
        exact (List.sorted_cons.mp hsorted).1 s.created_at
          (List.mem_map_of_mem AWSSession.created_at hs)
      have hexp' : ∀ s ∈ a :: (m ++ [z]), s.is_expired now = false := by
        rw [← List.cons_append]
        exact hexp
      have hfill := addMany_fill now (a :: m) [] N (by simp)
        (fun s hs => hexp s (List.mem_append_left _ hs))
        (by simpa using hmlen.le)
        (fun s _ => rfl)
        hfront_nodup
      have hevict := add_session_evict now z (a.session_id, a)
        (m.map fun s => (s.session_id, s)) N
        (by
          intro q hq
          rcases List.mem_cons.mp hq with h | h
          · rw [h]
            exact hexp' a (List.mem_cons_self _ _)
          · rcases List.mem_map.mp h with ⟨s, hs, hsf⟩
            rw [← hsf]
            exact hexp' s (List.mem_cons_of_mem a (List.mem_append_left _ hs)))
        (by simp; omega)
        (by
          intro q hq
          rcases List.mem_map.mp hq with ⟨s, hs, hsf⟩
          rw [← hsf]
          exact hsorted' s (List.mem_append_left _ hs))
        (by
          intro q hq
          rcases List.mem_map.mp hq with ⟨s, hs, hsf⟩
          rw [← hsf]
          show s.session_id ≠ a.session_id
          intro hcontra
          exact hanotin (hcontra ▸
            List.mem_map_of_mem AWSSession.session_id hs))
        (by
          rw [List.any_eq_false]
          intro q hq
          simp only [decide_eq_true_eq]
          rcases List.mem_cons.mp hq with h | h
          · rw [h]
            exact hdisj a (List.mem_cons_self a m)
          · rcases List.mem_map.mp h with ⟨s, hs, hsf⟩
            rw [← hsf]
            exact hdisj s (List.mem_cons_of_mem a hs))
      refine ⟨{ sessions := (m.map fun s => (s.session_id, s))
                  ++ [(z.session_id, z)], max_sessions := N }, ?_, ?_, ?_⟩
      · rw [addMany_append now (a :: m) [z], hfill, Option.some_bind]
        simp only [List.nil_append, List.map_cons, AWSSessionCache.addMany]
        rw [hevict]
      · simp
      · simp
        omega

/-- Witness for `c4_session_cache_eviction`: three live sessions into a
capacity-2 cache evict exactly the earliest-created one. -/
theorem c4_session_cache_eviction_witness :
    ∃ c, ({ sessions := [], max_sessions := 2 } : AWSSessionCache).addMany 0
        [evictionWitnessSession "a" 0, evictionWitnessSession "b" 1,
         evictionWitnessSession "c" 2] = some c ∧
      c.sessions = ([evictionWitnessSession "a" 0, evictionWitnessSession "b" 1,
         evictionWitnessSession "c" 2].map (fun s => (s.session_id, s))).tail ∧
      c.sessions.length = 2 :=
  c4_session_cache_eviction.2 2 0
    [evictionWitnessSession "a" 0, evictionWitnessSession "b" 1,
     evictionWitnessSession "c" 2]
    (by decide) rfl (by decide) (by decide) (by decide)

end CloudExplorer
